import Mathlib

set_option maxHeartbeats 1000000
set_option maxRecDepth 4096

/-
  Verification development for the MyFS in-memory filesystem
  (src/implementation.c).  The data model and the operations the
  specification talks about are embedded shallowly: the region is a
  structured state (inode table + memory-block table), intra-region
  references are byte offsets computed with the same layout constants as
  the C structs, buffers and C strings are lists of byte values, and every
  place where the C code would exhibit undefined behaviour (out-of-bounds
  memcpy, dereference of an offset outside its segment, non-terminating
  chain walk) the model returns `none`.
-/

namespace MyFS

/- Layout constants mirroring implementation.c.  The struct sizes are the
   LP64 sizeof values: Inode = 256-byte name array + 6 pointer-sized
   fields = 304; MemHead = 3 pointer-sized fields = 24; FSHandle = 4-byte
   magic (padded to 8) + 3 size_t + 2 pointers = 48. -/

def FS_BLOCK_SZ_KB : Nat := 4
def NAME_MAXLEN : Nat := 256
def BYTES_IN_KB : Nat := 1024
def ST_SZ_INODE : Nat := 304
def ST_SZ_MEMHEAD : Nat := 24
def ST_SZ_FSHANDLE : Nat := 48
def DATAFIELD_SZ_B : Nat := FS_BLOCK_SZ_KB * BYTES_IN_KB - ST_SZ_MEMHEAD
def MEMBLOCK_SZ_B : Nat := ST_SZ_MEMHEAD + DATAFIELD_SZ_B
def MIN_FS_SZ_B : Nat := ST_SZ_FSHANDLE + ST_SZ_INODE + 2 * MEMBLOCK_SZ_B
def FS_START_OFFSET : Nat := ST_SZ_FSHANDLE

/- errno values used by the operation surface (Linux numbering). -/

def ENOENT : Nat := 2
def EFAULT : Nat := 14
def EEXIST : Nat := 17
def ENOTDIR : Nat := 20
def EINVAL : Nat := 22
def EFBIG : Nat := 27
def ENOTEMPTY : Nat := 39

/- An inode record.  In the C code the non-name fields are declared as
   pointer types but are stored to and read from as plain values via
   casts; the model carries the values.  `last_acc`/`last_mod` hold the
   timestamp value that `inode_lasttimes_set` is documented to store
   (the C code actually stores the address of a stack-local timespec,
   which is itself a defect; the model records the intended time value so
   that timestamp mutations of the region remain observable). -/
structure Inode where
  name : List Nat
  is_dir : Nat
  subdirs : Int
  file_size_b : Nat
  last_acc : Nat
  last_mod : Nat
  offset_firstblk : Nat
deriving DecidableEq, Repr

/- A memory block: the MemHead header fields plus the bytes written into
   the block's data field. -/
structure MemHead where
  not_free : Nat
  data_size_b : Nat
  offset_nextblk : Nat
  data : List Nat
deriving DecidableEq, Repr

/- The filesystem handle over a formatted region. -/
structure FSHandle where
  size_b : Nat
  num_inodes : Nat
  num_memblocks : Nat
  inodes : List Inode
  blocks : List MemHead
deriving DecidableEq, Repr

/- A caller-supplied region: either not yet formatted (carrying only its
   size; `fs_init` will format it or reject it) or already formatted. -/
inductive Region where
  | unformatted : Nat → Region
  | formatted : FSHandle → Region
deriving DecidableEq, Repr

/- Offset arithmetic (ptr_from_offset / offset_from_ptr).  Inode i lives
   at region offset FS_START_OFFSET + i * ST_SZ_INODE; block j lives at
   memSegOffset + j * MEMBLOCK_SZ_B. -/

def inodeOffset (i : Nat) : Nat := FS_START_OFFSET + i * ST_SZ_INODE

def memSegOffset (fs : FSHandle) : Nat :=
  FS_START_OFFSET + fs.num_inodes * ST_SZ_INODE

def blockOffset (fs : FSHandle) (j : Nat) : Nat :=
  memSegOffset fs + j * MEMBLOCK_SZ_B

/- The C code dereferences any offset blindly with ptr_from_offset; the
   model recovers the slot index, yielding `none` (undefined behaviour /
   fatal invariant violation) when the offset is not a valid slot of the
   expected segment. -/
def inodeIndexOfOffset (fs : FSHandle) (off : Nat) : Option Nat :=
  if FS_START_OFFSET ≤ off ∧ (off - FS_START_OFFSET) % ST_SZ_INODE = 0 ∧
      (off - FS_START_OFFSET) / ST_SZ_INODE < fs.num_inodes then
    some ((off - FS_START_OFFSET) / ST_SZ_INODE)
  else none

def blockIndexOfOffset (fs : FSHandle) (off : Nat) : Option Nat :=
  if memSegOffset fs ≤ off ∧ (off - memSegOffset fs) % MEMBLOCK_SZ_B = 0 ∧
      (off - memSegOffset fs) / MEMBLOCK_SZ_B < fs.num_memblocks then
    some ((off - memSegOffset fs) / MEMBLOCK_SZ_B)
  else none

/- List update helper (writing one slot of a table). -/
def listModify {α : Type} (f : α → α) : List α → Nat → List α
  | [], _ => []
  | a :: r, 0 => f a :: r
  | a :: r, n + 1 => a :: listModify f r n

def setInode (fs : FSHandle) (i : Nat) (f : Inode → Inode) : FSHandle :=
  { fs with inodes := listModify f fs.inodes i }

def setBlock (fs : FSHandle) (j : Nat) (b : MemHead) : FSHandle :=
  { fs with blocks := listModify (fun _ => b) fs.blocks j }

def setBlockNext (fs : FSHandle) (j : Nat) (off : Nat) : FSHandle :=
  { fs with blocks := listModify (fun b => { b with offset_nextblk := off }) fs.blocks j }

/- inode_lasttimes_set: stamp access time, and modification time when
   requested (see the remark on the Inode structure above). -/
def stampAcc (fs : FSHandle) (i : Nat) (now : Nat) : FSHandle :=
  setInode fs i (fun ino => { ino with last_acc := now })

def stampAccMod (fs : FSHandle) (i : Nat) (now : Nat) : FSHandle :=
  setInode fs i (fun ino => { ino with last_acc := now, last_mod := now })

/- str_len: length of a C string, i.e. the number of bytes before the
   first 0 byte of the buffer. -/
def str_len (s : List Nat) : Nat := (s.takeWhile (fun c => c ≠ 0)).length

/- strndup(s, n): duplicate at most n bytes of s, stopping at the first
   0 byte; the returned allocation holds the copied bytes plus a
   terminating 0.  The model returns the full content of the allocation,
   so its length tells how many bytes a later memcpy may legally read. -/
def strndup (s : List Nat) (n : Nat) : List Nat :=
  ((s.take n).takeWhile (fun c => c ≠ 0)) ++ [0]

/- inode_name_charvalid: the C char is signed, so bytes ≥ 128 are
   negative and fail the `ch < 32` test. -/
def signedByte (b : Nat) : Int :=
  if b < 128 then (b : Int) else (b : Int) - 256

def inode_name_charvalid (b : Nat) : Bool :=
  let ch := signedByte b
  ¬ (ch < 32 ∨ ch = 44 ∨ ch = 47 ∨ ch = 58 ∨ ch > 122)

/- inode_name_isvalid: scan the name, counting its length; reject when
   the running length exceeds NAME_MAXLEN or a character is illegal;
   reject the empty name at the end. -/
def name_scan : List Nat → Nat → Bool
  | [], len => len ≠ 0
  | c :: rest, len =>
    let len' := len + 1
    if len' > NAME_MAXLEN then false
    else if ¬ inode_name_charvalid c then false
    else name_scan rest len'

def inode_name_isvalid (name : List Nat) : Bool := name_scan name 0

/- memblock_nextfree: lowest-indexed block whose not_free flag is clear. -/
def nextfreeAux : List MemHead → Nat → Option Nat
  | [], _ => none
  | b :: r, i => if b.not_free = 0 then some i else nextfreeAux r (i + 1)

def memblock_nextfree (fs : FSHandle) : Option Nat := nextfreeAux fs.blocks 0

/- memblock_data_get: walk the chain, concatenating data_size_b bytes of
   each block's data field; a block with data_size_b = 0 stops the walk
   (`if (!sz_to_write) break`).  The fuel bounds the walk; running out of
   fuel models the C loop running forever on a cyclic chain. -/
def memblock_data_get (fs : FSHandle) : Nat → Nat → Option (List Nat)
  | 0, _ => none
  | fuel + 1, j =>
    match fs.blocks.get? j with
    | none => none
    | some b =>
      if b.data_size_b = 0 then some []
      else
        let chunk := b.data.take b.data_size_b
        if b.offset_nextblk = 0 then some chunk
        else
          match blockIndexOfOffset fs b.offset_nextblk with
          | none => none
          | some j2 => (memblock_data_get fs fuel j2).map (fun rest => chunk ++ rest)

/- inode_data_get: stamp the inode's access time, then read its chain
   starting at offset_firstblk.  The state after the stamp is returned in
   every case, because the stamp happens before the chain walk. -/
def inode_data_get (fs : FSHandle) (i : Nat) (now : Nat) :
    Option (List Nat) × FSHandle :=
  let fs' := stampAcc fs i now
  match fs'.inodes.get? i with
  | none => (none, fs')
  | some ino =>
    match blockIndexOfOffset fs' ino.offset_firstblk with
    | none => (none, fs')
    | some j => (memblock_data_get fs' (fs'.num_memblocks + 1) j, fs')

/- The chain-zeroing loop of inode_data_remove: read the next offset,
   zero the whole block (header and data field), advance; stop when the
   next offset was 0. -/
def blocks_clear (fs : FSHandle) : Nat → Nat → Option FSHandle
  | 0, _ => none
  | fuel + 1, j =>
    match fs.blocks.get? j with
    | none => none
    | some b =>
      let nxt := b.offset_nextblk
      let fs' := setBlock fs j ⟨0, 0, 0, []⟩
      if nxt = 0 then some fs'
      else
        match blockIndexOfOffset fs' nxt with
        | none => none
        | some j2 => blocks_clear fs' fuel j2

/- inode_data_remove: zero the inode's chain, zero its size, stamp both
   times, and when newblock is requested point offset_firstblk at the
   lowest free block. -/
def inode_data_remove (fs : FSHandle) (i : Nat) (newblock : Nat) (now : Nat) :
    Option FSHandle :=
  match fs.inodes.get? i with
  | none => none
  | some ino =>
    match blockIndexOfOffset fs ino.offset_firstblk with
    | none => none
    | some j =>
      match blocks_clear fs (fs.num_memblocks + 1) j with
      | none => none
      | some fsA =>
        let fsB := setInode fsA i (fun n => { n with file_size_b := 0 })
        let fsC := stampAccMod fsB i now
        if newblock ≠ 0 then
          match memblock_nextfree fsC with
          | none => none
          | some k =>
            some (setInode fsC i (fun n => { n with offset_firstblk := blockOffset fsC k }))
        else some fsC

/- The multi-block fill loop of inode_data_set.  Each iteration writes up
   to DATAFIELD_SZ_B bytes of `data` into the current block, links the
   previous block to it, and advances to the next free block.  `none`
   models either the memcpy reading past the end of the source buffer or
   the NULL dereference when no free block remains. -/
def data_set_loop (data : List Nat) :
    Nat → FSHandle → Nat → Nat → Option Nat → Nat → Option FSHandle
  | 0, _, _, _, _, _ => none
  | fuel + 1, fs, num_bytes, data_idx, prev, cur =>
    if num_bytes = 0 then some fs
    else
      let write_bytes := if num_bytes > DATAFIELD_SZ_B then DATAFIELD_SZ_B else num_bytes
      if data.length < data_idx + write_bytes then none
      else
        match fs.blocks.get? cur with
        | none => none
        | some _ =>
          let chunk := (data.drop data_idx).take write_bytes
          let fs1 := setBlock fs cur ⟨1, write_bytes, 0, chunk⟩
          let fs2 := match prev with
                     | some p => setBlockNext fs1 p (blockOffset fs1 cur)
                     | none => fs1
          let num' := num_bytes - write_bytes
          if num' = 0 then some fs2
          else
            match memblock_nextfree fs2 with
            | none => none
            | some nxt =>
              data_set_loop data fuel fs2 num' (data_idx + write_bytes) (some cur) nxt

/- inode_data_set: release any existing chain (acquiring a fresh first
   block), then fill one block (sz ≤ DATAFIELD_SZ_B) or several, then
   stamp both times and record the new payload size. -/
def inode_data_set (fs : FSHandle) (i : Nat) (data : List Nat) (sz : Nat) (now : Nat) :
    Option FSHandle :=
  match fs.inodes.get? i with
  | none => none
  | some ino0 =>
    let step1 : Option FSHandle :=
      if ino0.file_size_b ≠ 0 ∨ ino0.offset_firstblk = 0 then
        inode_data_remove fs i 1 now
      else some fs
    match step1 with
    | none => none
    | some fsA =>
      match fsA.inodes.get? i with
      | none => none
      | some ino =>
        match blockIndexOfOffset fsA ino.offset_firstblk with
        | none => none
        | some j =>
          let written : Option FSHandle :=
            if sz ≤ DATAFIELD_SZ_B then
              if data.length < sz then none
              else some (setBlock fsA j ⟨1, sz, 0, data.take sz⟩)
            else data_set_loop data (sz + 1) fsA sz 0 none j
          match written with
          | none => none
          | some fsB =>
            let fsC := stampAccMod fsB i now
            some (setInode fsC i (fun n => { n with file_size_b := sz }))

/- inode_data_append: measure the appended buffer with str_len, read the
   current payload, concatenate, and reinstall. -/
def inode_data_append (fs : FSHandle) (i : Nat) (append_data : List Nat) (now : Nat) :
    Option FSHandle :=
  let append_sz := str_len append_data
  match inode_data_get fs i now with
  | (none, _) => none
  | (some data, fs') =>
    inode_data_set fs' i (data ++ append_data.take append_sz) (data.length + append_sz) now

/- Byte-list prefix test (used to model strstr). -/
def isPre : List Nat → List Nat → Bool
  | [], _ => true
  | _ :: _, [] => false
  | a :: l1, b :: l2 => a = b && isPre l1 l2

/- strstr: index of the first occurrence of pat in hay (the buffers the
   code searches hold the payload bytes; the model searches exactly those
   bytes). -/
def strstrIdx : List Nat → List Nat → Option Nat
  | [], pat => if isPre pat [] then some 0 else none
  | c :: t, pat =>
    if isPre pat (c :: t) then some 0
    else (strstrIdx t pat).map (fun i => i + 1)

/- strstr for a single character (the ":" and "\n" searches). -/
def charIdx : List Nat → Nat → Option Nat
  | [], _ => none
  | c :: r, t => if c = t then some 0 else (charIdx r t).map (fun i => i + 1)

/- snprintf("%lu", n) preceded by digits_count(n): the decimal digits of
   n, most significant first; for n = 0 digits_count is 0, so the 1-byte
   buffer receives only the terminator and the string is empty. -/
def decDigitsRev : Nat → Nat → List Nat
  | 0, _ => []
  | f + 1, n => if n = 0 then [] else decDigitsRev f (n / 10) ++ [48 + n % 10]

def decDigits (n : Nat) : List Nat := decDigitsRev n n

/- sscanf("%zu"): value of the maximal digit prefix; none when the first
   character is not a digit (the scanned variable stays indeterminate). -/
def parseDecAux : List Nat → Nat → Nat
  | [], acc => acc
  | c :: r, acc =>
    if 48 ≤ c ∧ c ≤ 57 then parseDecAux r (acc * 10 + (c - 48)) else acc

def parseDec : List Nat → Option Nat
  | [] => none
  | c :: r => if 48 ≤ c ∧ c ≤ 57 then some (parseDecAux (c :: r) 0) else none

/- Dereference the parsed offset as an inode and compare its filename
   with the requested name (the tail of dir_subitem_get). -/
def dir_lookup_deref (fs : FSHandle) (off : Nat) (name : List Nat) :
    Option (Option Nat) :=
  match inodeIndexOfOffset fs off with
  | none => none
  | some k =>
    match fs.inodes.get? k with
    | none => none
    | some child => if child.name = name then some (some k) else some none

/- Parse "…:offset\n" starting at the strstr match: find the first ":"
   and the first "\n" at or after the match, copy the bytes between them
   and scan the decimal offset. -/
def dir_lookup_line (fs : FSHandle) (tail name : List Nat) : Option (Option Nat) :=
  match charIdx tail 58, charIdx tail 10 with
  | some cpos, some epos =>
    if epos ≤ cpos then none
    else
      match parseDec ((tail.drop (cpos + 1)).take (epos - cpos - 1)) with
      | none => none
      | some off => dir_lookup_deref fs off name
  | _, _ => some none

/- The body of dir_subitem_get once the directory payload is in hand:
   substring-search the payload for the name, parse the offset, and
   return the child only when its filename field equals the name. -/
def dir_lookup_data (fs : FSHandle) (data name : List Nat) : Option (Option Nat) :=
  match strstrIdx data name with
  | none => some none
  | some m => dir_lookup_line fs (data.drop m) name

/- dir_subitem_get: read the parent directory's payload (stamping its
   access time) and look the name up in it. -/
def dir_subitem_get (fs : FSHandle) (d : Nat) (name : List Nat) (now : Nat) :
    Option (Option Nat × FSHandle) :=
  match inode_data_get fs d now with
  | (none, _) => none
  | (some data, fs') =>
    match dir_lookup_data fs' data name with
    | none => none
    | some res => some (res, fs')

/- Reading path[i] where the terminating 0 byte sits just past the list. -/
def pathByte (path : List Nat) (i : Nat) : Nat := path.getD i 0

/- The inner component-collection loop of resolve_path: copy characters
   from curr_ind until the character after the one just copied is "/" or
   the terminator, then skip it. -/
def parse_part (path : List Nat) : Nat → Nat → List Nat → List Nat × Nat
  | 0, ci, acc => (acc, ci)
  | fuel + 1, ci, acc =>
    let acc' := acc ++ [pathByte path ci]
    let ci' := ci + 1
    if pathByte path ci' = 47 ∨ pathByte path ci' = 0 then (acc', ci' + 1)
    else parse_part path fuel ci' acc'

/- The outer loop of resolve_path: while characters remain, take the next
   component and look it up in the current directory.  A NULL current
   directory that is looked up again is a NULL dereference (none). -/
def resolve_loop (path : List Nat) (now : Nat) :
    Nat → FSHandle → Nat → Option Nat → List Nat →
    Option (Option Nat × List Nat × FSHandle)
  | 0, _, _, _, _ => none
  | fuel + 1, fs, ci, curr, lastPart =>
    if ci < path.length then
      match parse_part path (path.length + 1) ci [] with
      | (part, ci') =>
        match curr with
        | none => none
        | some d =>
          match dir_subitem_get fs d part now with
          | none => none
          | some (res, fs') => resolve_loop path now fuel fs' ci' res part
    else some (curr, lastPart, fs)

/- resolve_path: the root name short-circuit, then the component loop,
   then the final check that the resolved inode's filename equals the
   last component. -/
def resolve_path (fs : FSHandle) (path : List Nat) (now : Nat) :
    Option (Option Nat × FSHandle) :=
  match fs.inodes.get? 0 with
  | none => none
  | some root =>
    if path = root.name then some (some 0, fs)
    else
      match resolve_loop path now (path.length + 1) fs 1 (some 0) [] with
      | none => none
      | some (curr, lastPart, fs') =>
        match curr with
        | none => some (none, fs')
        | some k =>
          match fs'.inodes.get? k with
          | none => none
          | some c => if c.name = lastPart then some (some k, fs') else some (none, fs')

/- fs_pathresolve's leading check: the path must start with "/". -/
def path_has_root (path : List Nat) : Bool :=
  match path with
  | c :: _ => c = 47
  | [] => false

/- The counting loop of fs_init: grow both counters while the blocks and
   inodes still fit in the space after the handle. -/
def fs_calc_n : Nat → Nat → Nat → Nat
  | 0, _, n => n
  | fuel + 1, s, n =>
    if n * DATAFIELD_SZ_B + n * ST_SZ_INODE < s then fs_calc_n fuel s (n + 1) else n

/- The format branch of fs_init: zero the region, lay out the tables,
   and install inode 0 as the root directory owning block 0. -/
def fs_format (size : Nat) (now : Nat) : FSHandle :=
  let s := size - FS_START_OFFSET
  let n := fs_calc_n s s 0
  { size_b := s
    num_inodes := n
    num_memblocks := n
    inodes :=
      { name := [47], is_dir := 1, subdirs := 0, file_size_b := 0,
        last_acc := now, last_mod := now,
        offset_firstblk := FS_START_OFFSET + n * ST_SZ_INODE } ::
      List.replicate (n - 1) ⟨[], 0, 0, 0, 0, 0, 0⟩
    blocks := ⟨1, 0, 0, []⟩ :: List.replicate (n - 1) ⟨0, 0, 0, []⟩ }

/- fs_handle / fs_init: reject a region below the minimum size; format an
   unformatted region; rebind a formatted one. -/
def fs_handle (r : Region) (now : Nat) : Option FSHandle :=
  match r with
  | Region.formatted fs => some fs
  | Region.unformatted sz =>
    if sz < MIN_FS_SZ_B then none else some (fs_format sz now)

/- __myfs_read_implem.  Result: (return value, errno written (none when
   untouched), bytes copied into the caller's buffer, region after the
   call); outer none = undefined behaviour. -/
def myfs_read (r : Region) (path : List Nat) (size : Nat) (offset : Nat) (now : Nat) :
    Option (Int × Option Nat × List Nat × Region) :=
  if size = 0 then some (0, none, [], r)
  else
    match fs_handle r now with
    | none => some (-1, some EFAULT, [], r)
    | some fs =>
      if path_has_root path then
        match resolve_path fs path now with
        | none => none
        | some (none, fs') => some (-1, some ENOENT, [], Region.formatted fs')
        | some (some k, fs') =>
          match inode_data_get fs' k now with
          | (none, _) => none
          | (some data, fs'') =>
            if offset ≤ data.length then
              some (((data.length : Int) - (offset : Int), none,
                     data.drop offset, Region.formatted fs''))
            else some (0, some EFBIG, [], Region.formatted fs'')
      else some (-1, some EINVAL, [], Region.formatted fs)

/- __myfs_write_implem.  At offset 0 the buffer is duplicated with
   strndup and installed; at a non-zero offset within the payload the
   first offset bytes of a strndup of the old payload are concatenated
   (via realloc, which leaves a gap of indeterminate bytes when the
   duplicate stopped at an embedded 0) with size bytes of the buffer. -/
def myfs_write (r : Region) (path buf : List Nat) (size offset now : Nat) :
    Option (Int × Option Nat × Region) :=
  if size = 0 then some (0, none, r)
  else
    match fs_handle r now with
    | none => some (-1, some EFAULT, r)
    | some fs =>
      if path_has_root path then
        match resolve_path fs path now with
        | none => none
        | some (none, fs') => some (-1, some ENOENT, Region.formatted fs')
        | some (some k, fs') =>
          if offset = 0 then
            match inode_data_set fs' k (strndup buf size) size now with
            | none => none
            | some fs'' => some ((size : Int), none, Region.formatted fs'')
          else
            match inode_data_get fs' k now with
            | (none, _) => none
            | (some orig, fs'') =>
              if offset ≤ orig.length then
                let dup := strndup orig offset
                if dup.length < offset then none
                else if buf.length < size then none
                else
                  match inode_data_set fs'' k (dup.take offset ++ buf.take size)
                      (offset + size) now with
                  | none => none
                  | some fs3 => some ((size : Int), none, Region.formatted fs3)
              else some (0, some EFBIG, Region.formatted fs'')
      else some (-1, some EINVAL, Region.formatted fs)

/- __myfs_truncate_implem: read the payload; grow by appending a
   zero-filled buffer through inode_data_append, shrink by reinstalling a
   prefix, otherwise do nothing. -/
def myfs_truncate (r : Region) (path : List Nat) (offset now : Nat) :
    Option (Int × Option Nat × Region) :=
  match fs_handle r now with
  | none => some (-1, some EFAULT, r)
  | some fs =>
    if path_has_root path then
      match resolve_path fs path now with
      | none => none
      | some (none, fs') => some (-1, some ENOENT, Region.formatted fs')
      | some (some k, fs') =>
        match inode_data_get fs' k now with
        | (none, _) => none
        | (some orig, fs'') =>
          if orig.length < offset then
            match inode_data_append fs'' k (List.replicate (offset - orig.length) 0) now with
            | none => none
            | some fs3 => some (0, none, Region.formatted fs3)
          else if offset < orig.length then
            match inode_data_set fs'' k orig offset now with
            | none => none
            | some fs3 => some (0, none, Region.formatted fs3)
          else some (0, none, Region.formatted fs'')
    else some (-1, some EINVAL, Region.formatted fs)

/- strsep-style split of the path after its leading "/" (child_remove's
   parent-path computation). -/
def splitSep : List Nat → List (List Nat)
  | [] => [[]]
  | c :: r =>
    if c = 47 then [] :: splitSep r
    else
      match splitSep r with
      | t :: ts => (c :: t) :: ts
      | [] => [[c]]

/- child_remove: split off the parent path, resolve parent and child,
   build the child's "name:offset\n" line, splice it out of the parent's
   payload, reinstall, fix the subdir count, and release the child's
   chain (note: with newblock = 0, so the child's offset_firstblk keeps
   its stale value).  A missed strstr makes the splice arithmetic
   underflow (none). -/
def child_remove (fs : FSHandle) (path : List Nat) (now : Nat) :
    Option (Bool × FSHandle) :=
  let toks := splitSep (path.drop 1)
  let par0 := (toks.dropLast.map (fun t => 47 :: t)).flatten
  let par_path := if par0 = [] then [47] else par0
  match resolve_path fs par_path now with
  | none => none
  | some (parentOpt, fs1) =>
    match resolve_path fs1 path now with
    | none => none
    | some (childOpt, fs2) =>
      match parentOpt, childOpt with
      | some pk, some ck =>
        match fs2.inodes.get? ck with
        | none => none
        | some child =>
          let rmline := child.name ++ 58 :: decDigits (inodeOffset ck) ++ [10]
          match inode_data_get fs2 pk now with
          | (none, _) => none
          | (some par_data, fs3) =>
            match strstrIdx par_data rmline with
            | none => none
            | some s1 =>
              let line_sz := str_len rmline
              let sz2 := par_data.length - s1 - line_sz
              let new_data := par_data.take s1 ++ (par_data.drop (s1 + line_sz)).take sz2
              match inode_data_set fs3 pk new_data (s1 + sz2) now with
              | none => none
              | some fs4 =>
                let fs5 := if child.is_dir ≠ 0 then
                             setInode fs4 pk (fun n => { n with subdirs := n.subdirs - 1 })
                           else fs4
                match inode_data_remove fs5 ck 0 now with
                | none => none
                | some fs6 =>
                  some (true, setInode fs6 ck (fun n => { n with is_dir := 0, subdirs := 0 }))
      | _, _ => some (false, fs2)

/- __myfs_rmdir_implem: resolve, require an empty payload, then remove. -/
def myfs_rmdir (r : Region) (path : List Nat) (now : Nat) :
    Option (Int × Option Nat × Region) :=
  match fs_handle r now with
  | none => some (-1, some EFAULT, r)
  | some fs =>
    if path_has_root path then
      match resolve_path fs path now with
      | none => none
      | some (none, fs') => some (-1, some ENOENT, Region.formatted fs')
      | some (some k, fs') =>
        match fs'.inodes.get? k with
        | none => none
        | some ino =>
          if ino.file_size_b ≠ 0 then some (-1, some ENOTEMPTY, Region.formatted fs')
          else
            match child_remove fs' path now with
            | none => none
            | some (true, fs'') => some (0, none, Region.formatted fs'')
            | some (false, fs'') => some (-1, some EINVAL, Region.formatted fs'')
    else some (-1, some EINVAL, Region.formatted fs)

/- memblocks_numfree: total blocks minus the blocks implied by every
   inode's payload size (a partial last block counts as one).  The
   subtraction is size_t arithmetic, hence the 2^64 wrap. -/
def UINT64_MOD : Nat := 2 ^ 64

def blocks_used (fs : FSHandle) : Nat :=
  fs.inodes.foldl
    (fun acc ino =>
      acc + (if ino.file_size_b % DATAFIELD_SZ_B > 0 then 1 else 0)
          + ino.file_size_b / DATAFIELD_SZ_B)
    0

def memblocks_numfree (fs : FSHandle) : Nat :=
  (fs.num_memblocks + UINT64_MOD - blocks_used fs % UINT64_MOD) % UINT64_MOD

/- __myfs_statfs_implem. -/
structure StatVfs where
  f_bsize : Nat
  f_blocks : Nat
  f_bfree : Nat
  f_bavail : Nat
  f_namemax : Nat
deriving DecidableEq, Repr

def myfs_statfs (r : Region) (now : Nat) : Int × Option Nat × Option StatVfs × Region :=
  match fs_handle r now with
  | none => (-1, some EFAULT, none, r)
  | some fs =>
    let blocks_free := memblocks_numfree fs
    (0, none,
     some ⟨DATAFIELD_SZ_B, 0, blocks_free, blocks_free, NAME_MAXLEN⟩,
     Region.formatted fs)

/- Reading the payload chain of inode i of a region (observation helper
   for stating theorems about post-states). -/
def region_file_payload (r : Region) (i : Nat) : Option (List Nat) :=
  match r with
  | Region.formatted fs =>
    match fs.inodes.get? i with
    | none => none
    | some ino =>
      match blockIndexOfOffset fs ino.offset_firstblk with
      | none => none
      | some j => memblock_data_get fs (fs.num_memblocks + 1) j
  | Region.unformatted _ => none

/- Spec-side free-block formulas, for the refinement comparison of claim
   C6.  `spec_free_blocks` transcribes the spec's words: total blocks
   minus the sum over in-use inodes of ceil(payload_size /
   payload_capacity), with a 0-sized file counted as 1 block if it holds
   a first block, else 0 (free inodes contribute nothing). -/
def spec_free_blocks (fs : FSHandle) : Nat :=
  fs.num_memblocks -
    (fs.inodes.map (fun ino =>
      if ino.offset_firstblk = 0 then 0
      else if ino.file_size_b = 0 then 1
      else (ino.file_size_b + (DATAFIELD_SZ_B - 1)) / DATAFIELD_SZ_B)).sum

/- The amended spec formula: as above but a 0-sized in-use inode
   contributes 0 blocks (its held first block is reported as free). -/
def specTerm (ino : Inode) : Nat :=
  if ino.offset_firstblk = 0 then 0
  else (ino.file_size_b + (DATAFIELD_SZ_B - 1)) / DATAFIELD_SZ_B

def spec_free_blocks_amended (fs : FSHandle) : Nat :=
  fs.num_memblocks - (fs.inodes.map specTerm).sum

/- Concrete states used by the claim theorems. -/

/- A region of the minimum size 8544 after mknod("/f") and
   write("/f", "ab", 2, 0): two inodes (root at offset 48, the file at
   offset 352) and two blocks (root payload "f:352\n" at offset 656, file
   payload "ab" at offset 4752). -/
def fs2 : FSHandle :=
  { size_b := 8496
    num_inodes := 2
    num_memblocks := 2
    inodes :=
      [ { name := [47], is_dir := 1, subdirs := 0, file_size_b := 6,
          last_acc := 0, last_mod := 0, offset_firstblk := 656 },
        { name := [102], is_dir := 0, subdirs := 0, file_size_b := 2,
          last_acc := 0, last_mod := 0, offset_firstblk := 4752 } ]
    blocks :=
      [ ⟨1, 6, 0, [102, 58, 51, 53, 50, 10]⟩,
        ⟨1, 2, 0, [97, 98]⟩ ] }

/- The byte list "file". -/
def nameFile : List Nat := [102, 105, 108, 101]

/- The byte list "file2". -/
def nameFile2 : List Nat := [102, 105, 108, 101, 50]

/- A three-inode region whose root directory contains the empty files
   "file" (inode 1 at offset 352) and "file2" (inode 2 at offset 656),
   created in that order, so the root payload is
   "file:352\nfile2:656\n".  With three inodes the block segment starts
   at offset 960. -/
def fsC5 : FSHandle :=
  { size_b := 13128
    num_inodes := 3
    num_memblocks := 3
    inodes :=
      [ { name := [47], is_dir := 1, subdirs := 0, file_size_b := 19,
          last_acc := 0, last_mod := 0, offset_firstblk := 960 },
        { name := nameFile, is_dir := 0, subdirs := 0, file_size_b := 0,
          last_acc := 0, last_mod := 0, offset_firstblk := 5056 },
        { name := nameFile2, is_dir := 0, subdirs := 0, file_size_b := 0,
          last_acc := 0, last_mod := 0, offset_firstblk := 9152 } ]
    blocks :=
      [ ⟨1, 19, 0, [102, 105, 108, 101, 58, 51, 53, 50, 10,
                    102, 105, 108, 101, 50, 58, 54, 53, 54, 10]⟩,
        ⟨1, 0, 0, []⟩,
        ⟨1, 0, 0, []⟩ ] }

/- The same region with the creation order reversed: "file2" (inode 1 at
   offset 352) was created before "file" (inode 2 at offset 656), so the
   root payload is "file2:352\nfile:656\n". -/
def fsC5bad : FSHandle :=
  { size_b := 13128
    num_inodes := 3
    num_memblocks := 3
    inodes :=
      [ { name := [47], is_dir := 1, subdirs := 0, file_size_b := 19,
          last_acc := 0, last_mod := 0, offset_firstblk := 960 },
        { name := nameFile2, is_dir := 0, subdirs := 0, file_size_b := 0,
          last_acc := 0, last_mod := 0, offset_firstblk := 5056 },
        { name := nameFile, is_dir := 0, subdirs := 0, file_size_b := 0,
          last_acc := 0, last_mod := 0, offset_firstblk := 9152 } ]
    blocks :=
      [ ⟨1, 19, 0, [102, 105, 108, 101, 50, 58, 51, 53, 50, 10,
                    102, 105, 108, 101, 58, 54, 53, 54, 10]⟩,
        ⟨1, 0, 0, []⟩,
        ⟨1, 0, 0, []⟩ ] }

/- ------------------------------------------------------------------ -/
/- Theorems                                                            -/
/- ------------------------------------------------------------------ -/

/-- C1 — the claim "write(path, buf, |buf|, 0) then read(path, out, |buf|, 0)
yields out == buf for every byte buffer of any contents" fails on the code:
write at offset 0 duplicates the caller's buffer with strndup, which stops
at the first 0 byte, and then inode_data_set copies size bytes from the
shorter duplicate, reading past its allocation.  On the existing file "/f"
of the formatted region fs2, writing the two bytes 0x00 0x41 is undefined
behaviour (the model returns none), so no round-trip holds for buffers
with an embedded 0 byte followed by further bytes. -/
theorem C1_write_strndup_ub :
    myfs_write (Region.formatted fs2) [47, 102] [0, 65] 2 0 5 = none := by decide

/-- C2 — the claim that read copies exactly payload[offset .. offset+size)
and never more than size bytes fails on the code: __myfs_read_implem
computes cpy_size = data_size - offset, ignoring the size argument.  On
the file "/f" with payload "ab" (2 bytes), read with size 1 at offset 0
copies both bytes into the caller's 1-byte buffer and returns 2. -/
theorem C2_read_ignores_size :
    myfs_read (Region.formatted fs2) [47, 102] 1 0 3 =
      some (2, none, [97, 98],
        Region.formatted (stampAcc (stampAcc fs2 0 3) 1 3)) := by decide

/-- C3 — the claim that read and write with offset beyond the payload end
return -1 with EFBIG fails on the code: both set the errno out-parameter
to EFBIG but then return 0 (read returns the initial cpy_size, write
returns size after zeroing it).  On the 2-byte file "/f", offset 5 gives
return value 0, not -1, in both operations. -/
theorem C3_efbig_returns_zero :
    myfs_read (Region.formatted fs2) [47, 102] 4 5 3 =
      some (0, some EFBIG, [],
        Region.formatted (stampAcc (stampAcc fs2 0 3) 1 3)) ∧
    myfs_write (Region.formatted fs2) [47, 102] [65] 1 5 3 =
      some (0, some EFBIG,
        Region.formatted (stampAcc (stampAcc fs2 0 3) 1 3)) := by decide

/-- C4 — the claim that truncate to a larger size installs the old bytes
followed by zero bytes fails on the code: the grow path hands the
zero-filled pad to inode_data_append, which measures it with str_len;
the first pad byte is 0, so the measured length is 0 and nothing is
appended.  Truncating the 2-byte file "/f" to size 4 returns 0 yet leaves
the payload at "ab" (2 bytes), and a subsequent read at offset 2 yields 0
bytes instead of 2 zero bytes. -/
theorem C4_truncate_grow_noop :
    (myfs_truncate (Region.formatted fs2) [47, 102] 4 9).map (fun t => t.1) = some 0 ∧
    (myfs_truncate (Region.formatted fs2) [47, 102] 4 9).bind
        (fun t => region_file_payload t.2.2 1) = some [97, 98] ∧
    ((myfs_truncate (Region.formatted fs2) [47, 102] 4 9).bind
        (fun t => myfs_read t.2.2 [47, 102] 2 2 9)).map (fun t => t.2.2.1) =
      some [] := by decide

/- Helper lemmas for the directory-lookup claim (C5). -/

theorem charIdx_append_cons (l1 l2 : List Nat) (t : Nat) (h : t ∉ l1) :
    charIdx (l1 ++ t :: l2) t = some l1.length := by
  induction l1 with
  | nil => simp [charIdx]
  | cons a r ih =>
    have ha : ¬ a = t := by
      intro e
      exact h (e ▸ List.mem_cons_self a r)
    have hr : t ∉ r := fun hm => h (List.mem_cons_of_mem a hm)
    rw [List.cons_append]
    show (if a = t then some 0 else (charIdx (r ++ t :: l2) t).map (fun i => i + 1)) =
      some (a :: r).length
    rw [if_neg ha, ih hr]
    simp

theorem decDigitsRev_mem_digit (f : Nat) :
    ∀ n x, x ∈ decDigitsRev f n → 48 ≤ x ∧ x ≤ 57 := by
  induction f with
  | zero => intro n x hx; simp [decDigitsRev] at hx
  | succ f ih =>
    intro n x hx
    by_cases hn : n = 0
    · simp [decDigitsRev, hn] at hx
    · simp only [decDigitsRev, if_neg hn, List.mem_append, List.mem_singleton] at hx
      rcases hx with hx | hx
      · exact ih (n / 10) x hx
      · subst hx
        have : n % 10 < 10 := Nat.mod_lt n (by norm_num)
        omega

theorem parseDecAux_append (l1 l2 : List Nat) (acc : Nat)
    (h : ∀ x ∈ l1, 48 ≤ x ∧ x ≤ 57) :
    parseDecAux (l1 ++ l2) acc = parseDecAux l2 (parseDecAux l1 acc) := by
  induction l1 generalizing acc with
  | nil => simp [parseDecAux]
  | cons a r ih =>
    have ha : 48 ≤ a ∧ a ≤ 57 := h a (List.mem_cons_self a r)
    have hr : ∀ x ∈ r, 48 ≤ x ∧ x ≤ 57 := fun x hx => h x (List.mem_cons_of_mem a hx)
    simp only [List.cons_append, parseDecAux, if_pos ha]
    exact ih _ hr

theorem decDigitsRev_parse (f : Nat) :
    ∀ n acc, n ≤ f →
      parseDecAux (decDigitsRev f n) acc =
        acc * 10 ^ (decDigitsRev f n).length + n := by
  induction f with
  | zero =>
    intro n acc hn
    have : n = 0 := Nat.le_zero.mp hn
    subst this
    simp [decDigitsRev, parseDecAux]
  | succ f ih =>
    intro n acc hn
    by_cases hz : n = 0
    · subst hz; simp [decDigitsRev, parseDecAux]
    · have hd : decDigitsRev (f + 1) n = decDigitsRev f (n / 10) ++ [48 + n % 10] := by
        simp [decDigitsRev, hz]
      have hdiv : n / 10 ≤ f := by
        have : n / 10 < n := Nat.div_lt_self (Nat.pos_of_ne_zero hz) (by norm_num)
        omega
      have hmod : n % 10 < 10 := Nat.mod_lt n (by norm_num)
      rw [hd, parseDecAux_append _ _ _ (decDigitsRev_mem_digit f (n / 10)),
        ih (n / 10) acc hdiv]
      have hdig : 48 ≤ 48 + n % 10 ∧ 48 + n % 10 ≤ 57 := by omega
      simp only [parseDecAux, if_pos hdig, List.length_append, List.length_cons,
        List.length_nil]
      have hdm := Nat.div_add_mod n 10
      have he : 48 + n % 10 - 48 = n % 10 := by omega
      rw [he, pow_succ, ← mul_assoc]
      generalize acc * 10 ^ (decDigitsRev f (n / 10)).length = A
      omega

theorem parseDec_decDigits (n : Nat) (h : 0 < n) : parseDec (decDigits n) = some n := by
  have hne : n ≠ 0 := Nat.pos_iff_ne_zero.mp h
  have hparse := decDigitsRev_parse n n 0 (le_refl n)
  cases hd : decDigits n with
  | nil =>
    exfalso
    cases n with
    | zero => exact hne rfl
    | succ m =>
      have : decDigits (m + 1) = decDigitsRev m ((m + 1) / 10) ++ [48 + (m + 1) % 10] := by
        simp [decDigits, decDigitsRev]
      rw [this] at hd
      simp at hd
  | cons c r =>
    have hc : 48 ≤ c ∧ c ≤ 57 := by
      apply decDigitsRev_mem_digit n n
      show c ∈ decDigitsRev n n
      have : decDigitsRev n n = c :: r := hd
      rw [this]
      exact List.mem_cons_self c r
    have : parseDecAux (c :: r) 0 = n := by
      have h0 : parseDecAux (decDigitsRev n n) 0 = 0 * 10 ^ (decDigitsRev n n).length + n :=
        hparse
      rw [show decDigitsRev n n = c :: r from hd] at h0
      simpa using h0
    simp only [parseDec, if_pos hc, this]

theorem dir_lookup_line_anchored (fs : FSHandle) (name rest : List Nat)
    (off k : Nat) (c : Inode)
    (hc58 : (58 : Nat) ∉ name) (hc10 : (10 : Nat) ∉ name)
    (hoff : 0 < off)
    (hidx : inodeIndexOfOffset fs off = some k)
    (hchild : fs.inodes.get? k = some c)
    (hname : c.name = name) :
    dir_lookup_line fs (name ++ 58 :: (decDigits off ++ 10 :: rest)) name =
      some (some k) := by
  have h58 : charIdx (name ++ 58 :: (decDigits off ++ 10 :: rest)) 58 =
      some name.length :=
    charIdx_append_cons name (decDigits off ++ 10 :: rest) 58 hc58
  have hassoc : name ++ 58 :: (decDigits off ++ 10 :: rest) =
      (name ++ 58 :: decDigits off) ++ 10 :: rest := by
    simp
  have h10pre : (10 : Nat) ∉ name ++ 58 :: decDigits off := by
    intro hm
    rcases List.mem_append.mp hm with hm | hm
    · exact hc10 hm
    · rcases List.mem_cons.mp hm with hm | hm
      · omega
      · have := decDigitsRev_mem_digit off off 10 hm
        omega
  have hlen : (name ++ 58 :: decDigits off).length =
      name.length + 1 + (decDigits off).length := by
    simp only [List.length_append, List.length_cons]
    omega
  have h10 : charIdx (name ++ 58 :: (decDigits off ++ 10 :: rest)) 10 =
      some (name.length + 1 + (decDigits off).length) := by
    rw [hassoc, charIdx_append_cons _ rest 10 h10pre, hlen]
  have hdroptail :
      (name ++ 58 :: (decDigits off ++ 10 :: rest)).drop (name.length + 1) =
        decDigits off ++ 10 :: rest := by
    have heq : name ++ 58 :: (decDigits off ++ 10 :: rest) =
        (name ++ [58]) ++ (decDigits off ++ 10 :: rest) := by simp
    rw [heq]
    exact List.drop_left' (by simp)
  have htake :
      (decDigits off ++ 10 :: rest).take
          (name.length + 1 + (decDigits off).length - name.length - 1) =
        decDigits off := by
    have he : name.length + 1 + (decDigits off).length - name.length - 1 =
        (decDigits off).length := by omega
    rw [he]
    exact List.take_left (decDigits off) (10 :: rest)
  have hcmp : ¬ (name.length + 1 + (decDigits off).length ≤ name.length) := by omega
  simp only [dir_lookup_line, h58, h10]
  rw [if_neg hcmp, hdroptail, htake, parseDec_decDigits off hoff]
  simp only [dir_lookup_deref, hidx, hchild]
  rw [if_pos hname]

/-- C5 (amended) — looking up NAME in directory inode D returns the inode
of the child named NAME provided the first occurrence of NAME as a
substring of D's payload is the start of NAME's own "NAME:offset" line
(the substring search of dir_subitem_get is not anchored to line starts,
so an earlier occurrence inside another entry — e.g. file2 before file —
preempts the match; the final filename comparison then rejects the wrong
inode and the lookup returns no inode rather than the child). -/
theorem C5_lookup_anchored (fs fs' : FSHandle) (d now : Nat)
    (data name rest : List Nat) (m off k : Nat) (c : Inode)
    (hget : inode_data_get fs d now = (some data, fs'))
    (hocc : strstrIdx data name = some m)
    (hline : data.drop m = name ++ 58 :: (decDigits off ++ 10 :: rest))
    (hc58 : (58 : Nat) ∉ name) (hc10 : (10 : Nat) ∉ name)
    (hoff : 0 < off)
    (hidx : inodeIndexOfOffset fs' off = some k)
    (hchild : fs'.inodes.get? k = some c)
    (hname : c.name = name) :
    dir_subitem_get fs d name now = some (some k, fs') := by
  have hdata : dir_lookup_data fs' data name = some (some k) := by
    simp only [dir_lookup_data, hocc]
    rw [hline]
    exact dir_lookup_line_anchored fs' name rest off k c hc58 hc10 hoff hidx hchild hname
  simp only [dir_subitem_get, hget, hdata]

/-- C5 witness — on the concrete region fsC5, whose root payload is
"file:352\nfile2:656\n", looking up "file" returns inode 1, the inode
named "file". -/
theorem C5_lookup_anchored_witness :
    dir_subitem_get fsC5 0 nameFile 7 = some (some 1, stampAcc fsC5 0 7) :=
  C5_lookup_anchored fsC5 (stampAcc fsC5 0 7) 0 7
    [102, 105, 108, 101, 58, 51, 53, 50, 10,
     102, 105, 108, 101, 50, 58, 54, 53, 54, 10]
    nameFile [102, 105, 108, 101, 50, 58, 54, 53, 54, 10] 0 352 1
    { name := nameFile, is_dir := 0, subdirs := 0, file_size_b := 0,
      last_acc := 0, last_mod := 0, offset_firstblk := 5056 }
    (by decide) (by decide) (by decide) (by decide) (by decide)
    (by decide) (by decide) (by decide) (by decide)

/-- C5 counterexample — the claim as stated (lookup succeeds even when
another child's name has NAME as a proper prefix) is false on the code:
in fsC5bad the root payload is "file2:352\nfile:656\n" and inode 2 is
named "file" (its line "file:656\n" is present, starting at index 10),
yet both dir_subitem_get and resolve_path of "/file" return no inode,
because the substring search finds "file" inside "file2" first and the
filename comparison then fails. -/
theorem C5_prefix_counterexample :
    dir_subitem_get fsC5bad 0 nameFile 7 = some (none, stampAcc fsC5bad 0 7) ∧
    (resolve_path fsC5bad [47, 102, 105, 108, 101] 7).map (fun p => p.1) =
      some none ∧
    (fsC5bad.inodes.get? 2).map Inode.name = some nameFile ∧
    inodeIndexOfOffset fsC5bad 656 = some 2 ∧
    strstrIdx [102, 105, 108, 101, 50, 58, 51, 53, 50, 10,
               102, 105, 108, 101, 58, 54, 53, 54, 10]
        (nameFile ++ [58]) = some 10 := by decide

/-- C6 counterexample — the spec's free-accounting formula (a 0-sized
in-use file counts as 1 block) disagrees with the free count statfs
reports: on a freshly formatted minimum-size region the root directory is
0-sized but holds block 0, so the spec formula gives 1 free block while
memblocks_numfree counts the root's payload as 0 blocks and reports 2. -/
theorem C6_counterexample :
    ((myfs_statfs (Region.formatted (fs_format 8544 0)) 3).2.2.1).map StatVfs.f_bfree ≠
      some (spec_free_blocks (fs_format 8544 0)) := by decide

/- Helper lemmas for the free-accounting claim (C6). -/

theorem codeTerm_eq_specTerm (ino : Inode)
    (h : ino.offset_firstblk = 0 → ino.file_size_b = 0) :
    (if ino.file_size_b % DATAFIELD_SZ_B > 0 then 1 else 0)
        + ino.file_size_b / DATAFIELD_SZ_B = specTerm ino := by
  unfold specTerm
  by_cases hf : ino.offset_firstblk = 0
  · rw [if_pos hf, h hf]
    norm_num
  · rw [if_neg hf]
    have hD : DATAFIELD_SZ_B = 4072 := by norm_num [DATAFIELD_SZ_B, FS_BLOCK_SZ_KB,
      BYTES_IN_KB, ST_SZ_MEMHEAD]
    rw [hD]
    rcases Nat.eq_zero_or_pos (ino.file_size_b % 4072) with hm | hm
    · rw [if_neg (by omega)]
      omega
    · rw [if_pos hm]
      omega

theorem blocks_used_foldl (l : List Inode) (a : Nat)
    (h : ∀ ino ∈ l, ino.offset_firstblk = 0 → ino.file_size_b = 0) :
    l.foldl
      (fun acc ino =>
        acc + (if ino.file_size_b % DATAFIELD_SZ_B > 0 then 1 else 0)
            + ino.file_size_b / DATAFIELD_SZ_B)
      a = a + (l.map specTerm).sum := by
  induction l generalizing a with
  | nil => simp
  | cons i r ih =>
    have hi := codeTerm_eq_specTerm i (h i (List.mem_cons_self i r))
    have hr : ∀ ino ∈ r, ino.offset_firstblk = 0 → ino.file_size_b = 0 :=
      fun ino hm => h ino (List.mem_cons_of_mem i hm)
    simp only [List.foldl_cons, List.map_cons, List.sum_cons]
    rw [ih _ hr]
    omega

theorem memblocks_numfree_eq (fs : FSHandle)
    (hfree : ∀ ino ∈ fs.inodes, ino.offset_firstblk = 0 → ino.file_size_b = 0)
    (hle : blocks_used fs ≤ fs.num_memblocks)
    (hlt : fs.num_memblocks < UINT64_MOD) :
    memblocks_numfree fs = spec_free_blocks_amended fs := by
  have hused : blocks_used fs = (fs.inodes.map specTerm).sum := by
    have := blocks_used_foldl fs.inodes 0 hfree
    simpa [blocks_used] using this
  have hM : UINT64_MOD = 18446744073709551616 := by norm_num [UINT64_MOD]
  unfold memblocks_numfree spec_free_blocks_amended
  rw [← hused, hM]
  rw [hM] at hlt
  have hmod : blocks_used fs % 18446744073709551616 = blocks_used fs :=
    Nat.mod_eq_of_lt (by omega)
  rw [hmod]
  have h1 : fs.num_memblocks + 18446744073709551616 - blocks_used fs =
      18446744073709551616 + (fs.num_memblocks - blocks_used fs) := by omega
  rw [h1, Nat.add_mod_left]
  exact Nat.mod_eq_of_lt (by omega)

/-- C6 (amended) — for every filesystem state whose free inodes all carry
payload size 0 (free inodes contribute nothing) and whose used-block sum
does not exceed the block count, the free-block count statfs reports
equals total_blocks minus the sum over in-use inodes of
ceil(payload_size / payload_capacity), where a 0-sized file contributes 0
blocks (the first block it still holds is reported as free, unlike the
original claim's convention of counting it as 1). -/
theorem C6_free_accounting_amended (fs : FSHandle) (now : Nat)
    (hfree : ∀ ino ∈ fs.inodes, ino.offset_firstblk = 0 → ino.file_size_b = 0)
    (hle : blocks_used fs ≤ fs.num_memblocks)
    (hlt : fs.num_memblocks < UINT64_MOD) :
    myfs_statfs (Region.formatted fs) now =
      (0, none,
       some ⟨DATAFIELD_SZ_B, 0, spec_free_blocks_amended fs,
             spec_free_blocks_amended fs, NAME_MAXLEN⟩,
       Region.formatted fs) := by
  simp only [myfs_statfs, fs_handle]
  rw [memblocks_numfree_eq fs hfree hle hlt]

/-- C6 witness — on the freshly formatted minimum-size region the
hypotheses hold concretely and statfs reports the amended formula's
value (2 free blocks, the root's held block included). -/
theorem C6_free_accounting_amended_witness :
    myfs_statfs (Region.formatted (fs_format 8544 0)) 3 =
      (0, none,
       some ⟨DATAFIELD_SZ_B, 0, spec_free_blocks_amended (fs_format 8544 0),
             spec_free_blocks_amended (fs_format 8544 0), NAME_MAXLEN⟩,
       Region.formatted (fs_format 8544 0)) :=
  C6_free_accounting_amended (fs_format 8544 0) 3 (by decide) (by decide) (by decide)

/-- C7 — the claim that an operation returning -1 leaves the region bytes
unchanged (no timestamp updates included) fails on the code: resolving a
missing path walks the directories through inode_data_get, which stamps
each directory's access time before the lookup fails.  On a fresh region,
read of the nonexistent "/x" returns -1 with ENOENT yet rewrites the root
inode's last-access field. -/
theorem C7_failed_read_mutates :
    myfs_read (Region.formatted (fs_format 8544 0)) [47, 120] 1 0 1 =
      some (-1, some ENOENT, [],
        Region.formatted (stampAcc (fs_format 8544 0) 0 1)) ∧
    stampAcc (fs_format 8544 0) 0 1 ≠ fs_format 8544 0 := by decide

/-- C8 — the claim that a 256-byte name is rejected fails on the code:
inode_name_isvalid rejects only when the running length exceeds
NAME_MAXLEN = 256, so a 256-byte name of legal characters is accepted
(and inode_name_set's strcpy then writes 257 bytes into the 256-byte name
field).  Lengths 255 and 256 are accepted; 257 and 0 are rejected. -/
theorem C8_name_256_accepted :
    inode_name_isvalid (List.replicate 255 97) = true ∧
    inode_name_isvalid (List.replicate 256 97) = true ∧
    inode_name_isvalid (List.replicate 257 97) = false ∧
    inode_name_isvalid [] = false := by decide

/-- C9 — the claim that rmdir("/") is cleanly rejected fails on the code:
there is no root check, so on a freshly formatted region the empty root
passes the ENOTEMPTY test and is handed to child_remove, which resolves
the root as its own parent and child, fails to find the line "/:48\n" in
the root's empty payload, and performs the splice with an underflowed
size_t length — undefined behaviour (the model returns none) instead of
a failure return. -/
theorem C9_rmdir_root_crashes :
    myfs_rmdir (Region.formatted (fs_format 8544 0)) [47] 1 = none := by decide

/-- C10 — read and write with size 0 return 0 immediately, before the
handle is bound or the path resolved: for every region (formatted or
not) and every path, no errno is written, no bytes are copied, and the
region is returned unchanged. -/
theorem C10_zero_size_noop (r : Region) (path buf : List Nat) (offset now : Nat) :
    myfs_read r path 0 offset now = some (0, none, [], r) ∧
    myfs_write r path buf 0 offset now = some (0, none, r) :=
  ⟨rfl, rfl⟩

end MyFS
